import Mathlib

/-!
Shallow embedding of the ATS (Applicant Tracking System) resume analyzer of
`apps/resumes/ats_analyzer.py`.

Texts are modelled as `List Char` (Python `str`).  Python's float arithmetic
on scores is modelled exactly over `ℚ`; Python's `round` (banker's rounding,
round-half-to-even) is `pyRound`.  Regex operations are modelled by
explicit character scanning:
  * `re.findall(r'\b[a-z]{n,}\b', text)` over an already-lowercased text
    returns exactly the maximal runs of word characters (`\w`) that consist
    solely of `a`-`z` and have length at least `n`;
  * `re.split(r'[.!?]+', text)` splits on maximal runs of sentence
    terminators, keeping empty pieces at the borders;
  * `re.search(r'\d+[%$]?|\d+\+', s)` succeeds exactly when `s` contains a
    digit (the first alternative matches a bare digit run);
  * a skill alternation `\b(python|...)\b` finds a skill literal exactly when
    it occurs in the text delimited by word boundaries (every skill literal
    begins and ends with a word character).
-/

namespace ATS

/-- Python `str` modelled as a list of characters. -/
abbrev Str := List Char

/-- Membership of the character class `[a-z]`. -/
def isAZ (c : Char) : Bool := 'a' ≤ c && c ≤ 'z'

/-- Python regex word character `\w` (ASCII fragment): letter, digit or underscore. -/
def wordChar (c : Char) : Bool := c.isAlpha || c.isDigit || c == '_'

/-- Sentence terminator character class `[.!?]` used by `calculate_readability`. -/
def sentTerm (c : Char) : Bool := c == '.' || c == '!' || c == '?'

/-- Python `str.lower()` (ASCII fragment). -/
def lower (s : Str) : Str := s.map Char.toLower

/-- Auxiliary scanner for `runs`: `cur` is the reversed current run of
`p`-characters. -/
def runsAux (p : Char → Bool) (cur : Str) : Str → List Str
  | [] => if cur.isEmpty then [] else [cur.reverse]
  | c :: cs =>
    if p c then runsAux p (c :: cur) cs
    else if cur.isEmpty then runsAux p [] cs
    else cur.reverse :: runsAux p [] cs

/-- Maximal runs of `p`-characters of a text, in order (the list of matches of
`p+` as a regex, as returned by `re.findall`). -/
def runs (p : Char → Bool) (s : Str) : List Str := runsAux p [] s

/-- Python `str.split()` with no argument: maximal runs of non-whitespace. -/
def splitWs (s : Str) : List Str := runs (fun c => !c.isWhitespace) s

/-- Auxiliary scanner for `splitOnRuns`: `cur` is the reversed current piece,
`inSep` records that the previous character belonged to a separator run. -/
def splitAux (p : Char → Bool) (cur : Str) (inSep : Bool) : Str → List Str
  | [] => [cur.reverse]
  | c :: cs =>
    if p c then
      if inSep then splitAux p [] true cs
      else cur.reverse :: splitAux p [] true cs
    else splitAux p (c :: cur) false cs

/-- Python `re.split(p+, s)`: split on maximal runs of `p`-characters, keeping
the (possibly empty) pieces before the first run and after the last run. -/
def splitOnRuns (p : Char → Bool) (s : Str) : List Str := splitAux p [] false s

/-- The analyzer's stop-word set (`ATSAnalyzer.stop_words`). -/
def stop_words : List Str :=
  ["the", "a", "an", "and", "or", "but", "in", "on", "at", "to", "for",
   "of", "with", "by", "from", "as", "is", "was", "are", "were", "been",
   "be", "have", "has", "had", "do", "does", "did", "will", "would",
   "should", "could", "may", "might", "must", "can", "this", "that",
   "these", "those", "i", "you", "he", "she", "it", "we", "they"].map
    fun w => w.toList

/-- One step of frequency counting: increment the entry of `w` in place, or
append a fresh entry.  Models insertion into a `collections.Counter`, which
preserves first-insertion key order. -/
def bump (acc : List (Str × ℕ)) (w : Str) : List (Str × ℕ) :=
  match acc with
  | [] => [(w, 1)]
  | (k, n) :: rest => if k = w then (k, n + 1) :: rest else (k, n) :: bump rest w

/-- Frequency table of a word list in first-occurrence key order
(`collections.Counter(keywords)`). -/
def countFreq (ws : List Str) : List (Str × ℕ) := ws.foldl bump []

/-- Stable descending insertion by count: the new element goes after all
existing elements with a count at least as large. -/
def insertByCount (x : Str × ℕ) : List (Str × ℕ) → List (Str × ℕ)
  | [] => [x]
  | y :: ys => if x.2 ≤ y.2 then y :: insertByCount x ys else x :: y :: ys

/-- Stable sort by descending count (the order produced by
`Counter.most_common`, which sorts by count descending, ties kept in
insertion order). -/
def sortByCountDesc (l : List (Str × ℕ)) : List (Str × ℕ) :=
  l.foldl (fun acc x => insertByCount x acc) []

/-- `Counter.most_common(n)`: the `n` most frequent entries, most frequent
first, ties in first-insertion order. -/
def most_common (n : ℕ) (l : List (Str × ℕ)) : List (Str × ℕ) :=
  (sortByCountDesc l).take n

/-- `ATSAnalyzer._extract_keywords(text, min_length, max_keywords)`:
`re.findall(r'\b[a-z]{min_length,}\b', text)`, remove stop words, count
frequencies, return the `max_keywords` most common entries. -/
def _extract_keywords (text : Str) (min_length : ℕ := 3) (max_keywords : ℕ := 50) :
    List (Str × ℕ) :=
  let words := (runs wordChar text).filter
    fun w => decide (min_length ≤ w.length) && w.all isAZ
  let keywords := words.filter fun w => !(decide (w ∈ stop_words))
  let word_freq := countFreq keywords
  most_common max_keywords word_freq

/-- Python's built-in `round`: round half to even (banker's rounding). -/
def pyRound (q : ℚ) : ℤ :=
  if q - ⌊q⌋ < 1/2 then ⌊q⌋
  else if 1/2 < q - ⌊q⌋ then ⌊q⌋ + 1
  else if ⌊q⌋ % 2 = 0 then ⌊q⌋ else ⌊q⌋ + 1

/-- A value of the `keyword_density` mapping built by
`calculate_keyword_match`. -/
structure Density where
  jd_count : ℕ
  resume_count : ℕ
  match_ratio : ℚ
deriving DecidableEq

/-- `ATSAnalyzer.calculate_keyword_match` over the already-lowercased job
description and resume texts.  The source iterates over the keys of
`jd_keywords` appending to `matched` or `missing` and, for matched keys, to
`density`; the three loops are rendered as filters over the ordered
association list.  Returns `(round(match_score), matched[:20], missing[:20],
density)`. -/
def calculate_keyword_match (jdt rt : Str) :
    ℤ × List Str × List Str × List (Str × Density) :=
  let jd_keywords := _extract_keywords jdt 3 50
  let resume_keywords := _extract_keywords rt 3 50
  if jd_keywords = [] then (0, [], [], [])
  else
    let resume_count := fun (w : Str) => ((resume_keywords.lookup w).getD 0)
    let matched := (jd_keywords.filter fun kv => 0 < resume_count kv.1).map Prod.fst
    let missing := (jd_keywords.filter fun kv => resume_count kv.1 = 0).map Prod.fst
    let density := (jd_keywords.filter fun kv => 0 < resume_count kv.1).map
      fun kv => (kv.1,
        { jd_count := kv.2
          resume_count := resume_count kv.1
          match_ratio := min ((resume_count kv.1 : ℚ) / (kv.2 : ℚ)) 1 : Density })
    let match_score : ℚ := ((matched.length : ℚ) / (jd_keywords.length : ℚ)) * 100
    (pyRound match_score, matched.take 20, missing.take 20, density)

/-- The skill literals of `ATSAnalyzer._extract_required_skills`'s six
`skill_patterns`, in pattern order with each alternation flattened
(`node\.?js` contributes its two concrete forms). -/
def skill_literals : List Str :=
  ["python", "java", "javascript", "react", "angular", "vue", "django",
   "flask", "nodejs", "node.js",
   "sql", "mysql", "postgresql", "mongodb", "redis", "elasticsearch",
   "aws", "azure", "gcp", "docker", "kubernetes", "jenkins", "git",
   "html", "css", "typescript", "go", "rust", "php", "ruby", "swift",
   "kotlin",
   "machine learning", "ml", "ai", "data science", "analytics",
   "agile", "scrum", "devops", "ci/cd", "tdd", "rest api", "graphql"].map
    fun w => w.toList

/-- Word-boundary test for the character adjacent to a match (`none` is the
text border). -/
def boundaryOk (oc : Option Char) : Bool :=
  match oc with
  | none => true
  | some c => !wordChar c

/-- Scanner for `occursWB`: `prev` is the character just before the current
suffix `t`. -/
def occursWBAux (s : Str) (prev : Option Char) (t : Str) : Bool :=
  (boundaryOk prev && s.isPrefixOf t && boundaryOk (t.drop s.length).head?) ||
  (match t with
   | [] => false
   | c :: cs => occursWBAux s (some c) cs)

/-- Occurrence of the literal `s` in `text` delimited by word boundaries:
the semantics of `re.findall(r'\b(...|s|...)\b', text)` finding `s`, given
that every skill literal begins and ends with a word character. -/
def occursWB (s text : Str) : Bool := occursWBAux s none text

/-- `ATSAnalyzer._extract_required_skills` over the already-lowercased job
description: the set of skill literals matched with word boundaries.  The
source builds `list(set(...))` whose order is unspecified; the embedding
fixes pattern order (no claim depends on the order of this list, only on
its membership and length). -/
def _extract_required_skills (jdt : Str) : List Str :=
  skill_literals.filter fun sk => occursWB sk jdt

/-- Python's substring containment `s in t`. -/
def isSubstr (s : Str) : Str → Bool
  | [] => s.isPrefixOf []
  | c :: cs => s.isPrefixOf (c :: cs) || isSubstr s cs

/-- `ATSAnalyzer.check_required_skills` over the already-lowercased texts:
a required skill is found iff it is a literal substring of the resume text;
score 100 when no skill is required, otherwise `round(100·|found|/|required|)`
(the source computes `(len(found)/len(required))*100`). -/
def check_required_skills (jdt rt : Str) : ℤ × List Str × List Str :=
  let required_skills := _extract_required_skills jdt
  let found_skills := required_skills.filter fun sk => isSubstr sk rt
  let missing_skills := required_skills.filter fun sk => !(isSubstr sk rt)
  if required_skills = [] then (100, found_skills, missing_skills)
  else
    let skill_score : ℚ :=
      ((found_skills.length : ℚ) / (required_skills.length : ℚ)) * 100
    (pyRound skill_score, found_skills, missing_skills)

/-- An `Experience` row as consumed by the analyzer. -/
structure Experience where
  company : Str
  position : Str
  description : Str
deriving DecidableEq

/-- An `Education` row as consumed by the analyzer; `degree_display` is the
label produced by Django's `get_degree_display()`. -/
structure Education where
  institution : Str
  field_of_study : Str
  degree_display : Str
deriving DecidableEq

/-- A `Certification` row as consumed by the analyzer. -/
structure Certification where
  name : Str
  issuing_organization : Str
deriving DecidableEq

/-- A `Project` row as consumed by the analyzer. -/
structure Project where
  title : Str
  description : Str
  technologies : Str
deriving DecidableEq

/-- The `Resume` record as consumed by the analyzer: its textual fields, its
related collections (in the order Django's `.all()` returns them), and the
two fields `analyze` writes back (`ats_score`, `last_ats_check`; the
timestamp is an abstract tick). -/
structure Resume where
  full_name : Str
  email : Str
  phone : Str
  location : Str
  summary : Str
  experiences : List Experience
  educations : List Education
  skills : List Str
  certifications : List Certification
  projects : List Project
  ats_score : ℤ := 0
  last_ats_check : Option ℕ := none
deriving DecidableEq

/-- `ATSAnalyzer._extract_resume_text`: flatten the resume's textual fields
into one space-joined blob, dropping empty parts
(`' '.join(filter(None, text_parts))`). -/
def _extract_resume_text (resume : Resume) : Str :=
  let text_parts :=
    [resume.full_name, resume.email, resume.summary]
    ++ (resume.experiences.flatMap fun exp => [exp.company, exp.position, exp.description])
    ++ (resume.educations.flatMap fun edu =>
        [edu.institution, edu.field_of_study, edu.degree_display])
    ++ resume.skills
    ++ (resume.certifications.flatMap fun cert => [cert.name, cert.issuing_organization])
    ++ (resume.projects.flatMap fun proj => [proj.title, proj.description, proj.technologies])
  List.intercalate ([' ']) (text_parts.filter fun p => !p.isEmpty)

/-- The lowercased resume text blob prepared in `ATSAnalyzer.__init__`
(`self.resume_text = self._extract_resume_text().lower()`). -/
def resume_text (resume : Resume) : Str := lower (_extract_resume_text resume)

/-- `ATSAnalyzer.check_formatting`: start from 100, apply the fixed
deductions in source order, record one issue string per deduction, floor the
final score at 0.  The source's single pass mutating `score` and `issues`
together is rendered as two conditional chains over the same conditions in
the same order.  The metric check `re.search(r'\d+[%$]?|\d+\+', d)` succeeds
exactly when the description `d` contains a digit. -/
def check_formatting (resume : Resume) : ℤ × List String :=
  let has_metrics := resume.experiences.any fun exp => exp.description.any Char.isDigit
  let word_count := (splitWs resume.summary).length
  let score : ℤ := 100
  let score := if resume.email.isEmpty then score - 10 else score
  let score := if resume.phone.isEmpty then score - 5 else score
  let score := if resume.experiences.isEmpty then score - 20 else score
  let score := if resume.skills.isEmpty then score - 15 else score
  let score := if !has_metrics then score - 10 else score
  let score :=
    if !resume.summary.isEmpty then
      if word_count < 20 then score - 5
      else if word_count > 150 then score - 5
      else score
    else score - 10
  let issues : List String := []
  let issues := if resume.email.isEmpty then issues ++ ["Missing email address"] else issues
  let issues := if resume.phone.isEmpty then issues ++ ["Missing phone number"] else issues
  let issues := if resume.experiences.isEmpty then
      issues ++ ["No work experience listed"] else issues
  let issues := if resume.skills.isEmpty then issues ++ ["No skills listed"] else issues
  let issues := if !has_metrics then
      issues ++ ["Add quantifiable achievements (numbers, percentages, metrics)"]
    else issues
  let issues :=
    if !resume.summary.isEmpty then
      if word_count < 20 then
        issues ++ ["Professional summary is too short (aim for 50-100 words)"]
      else if word_count > 150 then
        issues ++ ["Professional summary is too long (aim for 50-100 words)"]
      else issues
    else issues ++ ["Missing professional summary"]
  (max score 0, issues)

/-- `ATSAnalyzer.calculate_readability` over the already-lowercased resume
text: split into sentences on runs of `[.!?]`, words on whitespace, band the
average words-per-sentence.  The trailing 70 mirrors the source's
unreachable fallback `return 70`. -/
def calculate_readability (rt : Str) : ℤ :=
  if rt.isEmpty then 0
  else
    let sentences := splitOnRuns sentTerm rt
    let words := splitWs rt
    if sentences.isEmpty || words.isEmpty then 0
    else
      let avg_sentence_length : ℚ := (words.length : ℚ) / (sentences.length : ℚ)
      if 15 ≤ avg_sentence_length ∧ avg_sentence_length ≤ 20 then 100
      else if (10 ≤ avg_sentence_length ∧ avg_sentence_length < 15) ∨
              (20 < avg_sentence_length ∧ avg_sentence_length ≤ 25) then 80
      else if avg_sentence_length < 10 ∨ 25 < avg_sentence_length then 60
      else 70

/-- A suggestion record built by `generate_suggestions`. -/
structure Suggestion where
  category : String
  severity : String
  message : String
  action : String
deriving DecidableEq

/-- Join a list of `Str` values with a comma and a space
(Python `", ".join(...)`). -/
def joinStrs (l : List Str) : String :=
  (", ").intercalate (l.map fun w => String.mk w)

/-- The General fallback suggestion of `generate_suggestions`. -/
def generalSuggestion : Suggestion :=
  { category := "General", severity := "low",
    message := "Your resume looks great! Continue refining based on specific job requirements.",
    action := "Review and update before each application." }

/-- The suggestions accumulated by `ATSAnalyzer.generate_suggestions` before
its final fallback check: keyword suggestion (high below 60, medium below
80), skill suggestion (below 70 with missing skills), one formatting
suggestion per issue. -/
def preSuggestions (keyword_score skill_score : ℤ)
    (missing_keywords missing_skills : List Str) (format_issues : List String) :
    List Suggestion :=
  let suggestions : List Suggestion := []
  let suggestions :=
    if keyword_score < 60 then
      suggestions ++
        [{ category := "Keywords", severity := "high",
           message := s!"Only {keyword_score}% keyword match. Add more relevant keywords from the job description.",
           action := "Focus on these missing keywords: " ++ joinStrs (missing_keywords.take 5) }]
    else if keyword_score < 80 then
      suggestions ++
        [{ category := "Keywords", severity := "medium",
           message := "Good keyword coverage, but room for improvement.",
           action := "Consider adding: " ++ joinStrs (missing_keywords.take 3) }]
    else suggestions
  let n_missing := missing_skills.length
  let suggestions :=
    if skill_score < 70 ∧ ¬missing_skills.isEmpty then
      suggestions ++
        [{ category := "Skills", severity := "high",
           message := s!"Missing {n_missing} required technical skills.",
           action := "Add these skills if you have them: " ++ joinStrs (missing_skills.take 5) }]
    else suggestions
  suggestions ++ format_issues.map fun issue =>
    { category := "Formatting", severity := "medium",
      message := issue,
      action := "Update your resume to address this issue." }

/-- `ATSAnalyzer.generate_suggestions`: the accumulated suggestions, or the
single General fallback when nothing fired (`if not suggestions`). -/
def generate_suggestions (keyword_score skill_score _format_score : ℤ)
    (missing_keywords missing_skills : List Str) (format_issues : List String) :
    List Suggestion :=
  let suggestions := preSuggestions keyword_score skill_score
    missing_keywords missing_skills format_issues
  if suggestions.isEmpty then [generalSuggestion] else suggestions

/-- The `ATSAnalysis` record persisted by `ATSAnalyzer.analyze` (minus the
database bookkeeping columns). -/
structure ATSAnalysis where
  job_description : Str
  score : ℤ
  matched_keywords : List Str
  missing_keywords : List Str
  keyword_density : List (Str × Density)
  suggestions : List Suggestion
  has_contact_info : Bool
  has_clear_sections : Bool
  has_measurable_achievements : Bool
  readability_score : ℤ
deriving DecidableEq

/-- The dictionary returned by `ATSAnalyzer.get_detailed_report`, with the
`breakdown` sub-dictionary inlined. -/
structure DetailedReport where
  overall_score : ℤ
  keyword_match : ℤ
  skill_match : ℤ
  formatting : ℤ
  readability : ℤ
  matched_keywords : List Str
  missing_keywords : List Str
  found_skills : List Str
  missing_skills : List Str
  format_issues : List String
  suggestions : List Suggestion
deriving DecidableEq

/-- The weighted overall score of `analyze` and `get_detailed_report`:
`round(keyword*0.35 + skill*0.30 + format*0.25 + readability*0.10)`. -/
def overall_score (keyword_score skill_score format_score readability : ℤ) : ℤ :=
  pyRound ((keyword_score : ℚ) * 0.35 + (skill_score : ℚ) * 0.30 +
    (format_score : ℚ) * 0.25 + (readability : ℚ) * 0.10)

/-- `ATSAnalyzer.analyze(resume, job_description)` at an abstract clock tick
`now` (the value `timezone.now()` would return): computes all sub-scores,
builds the persisted `ATSAnalysis` record, and returns it together with the
updated resume (`resume.ats_score`/`resume.last_ats_check` are written; the
lowercasing of both texts happens in `ATSAnalyzer.__init__`). -/
def analyze (now : ℕ) (resume : Resume) (job_description : Str) :
    ATSAnalysis × Resume :=
  let jdt := lower job_description
  let rt := resume_text resume
  let kres := calculate_keyword_match jdt rt
  let keyword_score := kres.1
  let matched_kw := kres.2.1
  let missing_kw := kres.2.2.1
  let density := kres.2.2.2
  let sres := check_required_skills jdt rt
  let skill_score := sres.1
  let missing_skills := sres.2.2
  let fres := check_formatting resume
  let format_score := fres.1
  let format_issues := fres.2
  let readability := calculate_readability rt
  let score := overall_score keyword_score skill_score format_score readability
  let suggestions := generate_suggestions keyword_score skill_score format_score
    missing_kw missing_skills format_issues
  let analysis : ATSAnalysis :=
    { job_description := jdt
      score := score
      matched_keywords := matched_kw
      missing_keywords := missing_kw
      keyword_density := density
      suggestions := suggestions
      has_contact_info := !resume.email.isEmpty && !resume.phone.isEmpty
      has_clear_sections := !resume.experiences.isEmpty && !resume.skills.isEmpty
      has_measurable_achievements :=
        !(isSubstr (("quantifiable achievements").toList)
          (lower (List.intercalate ([' ']) (format_issues.map fun i => i.toList))))
      readability_score := readability }
  (analysis, { resume with ats_score := score, last_ats_check := some now })

/-- `ATSAnalyzer.get_detailed_report()`: the same sub-computations as
`analyze`, no persistence, keyword lists further truncated to 10. -/
def get_detailed_report (resume : Resume) (job_description : Str) :
    DetailedReport :=
  let jdt := lower job_description
  let rt := resume_text resume
  let kres := calculate_keyword_match jdt rt
  let keyword_score := kres.1
  let matched_kw := kres.2.1
  let missing_kw := kres.2.2.1
  let sres := check_required_skills jdt rt
  let skill_score := sres.1
  let found_skills := sres.2.1
  let missing_skills := sres.2.2
  let fres := check_formatting resume
  let format_score := fres.1
  let format_issues := fres.2
  let readability := calculate_readability rt
  { overall_score := overall_score keyword_score skill_score format_score readability
    keyword_match := keyword_score
    skill_match := skill_score
    formatting := format_score
    readability := readability
    matched_keywords := matched_kw.take 10
    missing_keywords := missing_kw.take 10
    found_skills := found_skills
    missing_skills := missing_skills
    format_issues := format_issues
    suggestions := generate_suggestions keyword_score skill_score format_score
      missing_kw missing_skills format_issues }

/-! ### Generic lemmas about the embedding's building blocks -/

theorem le_pyRound {q : ℚ} {m : ℤ} (h : (m : ℚ) ≤ q) : m ≤ pyRound q := by
  have hf : m ≤ ⌊q⌋ := Int.le_floor.mpr h
  unfold pyRound
  split_ifs <;> omega

theorem pyRound_le {q : ℚ} {m : ℤ} (h : q ≤ (m : ℚ)) : pyRound q ≤ m := by
  have hf : ⌊q⌋ ≤ m := by
    have h1 := Int.floor_le_floor h
    simpa using h1
  have hstep : ¬(q - ⌊q⌋ < 1/2) → ⌊q⌋ + 1 ≤ m := by
    intro h1
    have h2 : (1 : ℚ)/2 ≤ q - ⌊q⌋ := not_lt.mp h1
    have h3 : ((⌊q⌋ : ℚ)) < (m : ℚ) := by linarith
    have h4 : ⌊q⌋ < m := by exact_mod_cast h3
    omega
  unfold pyRound
  split_ifs with h1 h2 h3
  · exact hf
  · exact hstep h1
  · exact hf
  · exact hstep h1

theorem splitAux_ne_nil (p : Char → Bool) (cur : Str) (inSep : Bool) (s : Str) :
    splitAux p cur inSep s ≠ [] := by
  induction s generalizing cur inSep with
  | nil => simp [splitAux]
  | cons c cs ih =>
    simp only [splitAux]
    split_ifs <;> simp [ih]

theorem splitOnRuns_ne_nil (p : Char → Bool) (s : Str) : splitOnRuns p s ≠ [] :=
  splitAux_ne_nil p [] false s

theorem fst_mem_of_mem_bump {x : Str × ℕ} {acc : List (Str × ℕ)} {w : Str}
    (h : x ∈ bump acc w) : x.1 ∈ acc.map Prod.fst ∨ x.1 = w := by
  induction acc with
  | nil =>
    simp only [bump, List.mem_singleton] at h
    right; rw [h]
  | cons kv rest ih =>
    obtain ⟨k, n⟩ := kv
    simp only [bump] at h
    simp only [List.map_cons]
    split_ifs at h with hk
    · rcases List.mem_cons.mp h with h | h
      · right; rw [h, ← hk]
      · left; exact List.mem_cons_of_mem k (List.mem_map_of_mem Prod.fst h)
    · rcases List.mem_cons.mp h with h | h
      · left; rw [h]; exact List.mem_cons_self k _
      · rcases ih h with h' | h'
        · left; exact List.mem_cons_of_mem k h'
        · right; exact h'

theorem fst_mem_of_mem_foldl_bump {x : Str × ℕ} {ws : List Str} :
    ∀ {acc : List (Str × ℕ)}, x ∈ ws.foldl bump acc →
      x.1 ∈ acc.map Prod.fst ∨ x.1 ∈ ws := by
  induction ws with
  | nil =>
    intro acc h
    simp only [List.foldl_nil] at h
    left; exact List.mem_map_of_mem Prod.fst h
  | cons w ws ih =>
    intro acc h
    simp only [List.foldl_cons] at h
    rcases ih h with h' | h'
    · obtain ⟨y, hy, hxy⟩ := List.mem_map.mp h'
      rcases fst_mem_of_mem_bump hy with h'' | h''
      · left; rwa [hxy] at h''
      · right; rw [← hxy, h'']; exact List.mem_cons_self w ws
    · right; exact List.mem_cons_of_mem w h'

theorem fst_mem_of_mem_countFreq {x : Str × ℕ} {ws : List Str}
    (h : x ∈ countFreq ws) : x.1 ∈ ws := by
  rcases fst_mem_of_mem_foldl_bump h with h' | h'
  · simp at h'
  · exact h'

theorem mem_insertByCount {x y : Str × ℕ} {l : List (Str × ℕ)}
    (h : y ∈ insertByCount x l) : y = x ∨ y ∈ l := by
  induction l with
  | nil =>
    simp only [insertByCount, List.mem_singleton] at h
    left; exact h
  | cons z zs ih =>
    simp only [insertByCount] at h
    split_ifs at h
    · rcases List.mem_cons.mp h with h | h
      · right; rw [h]; exact List.mem_cons_self z zs
      · rcases ih h with h' | h'
        · left; exact h'
        · right; exact List.mem_cons_of_mem z h'
    · rcases List.mem_cons.mp h with h | h
      · left; exact h
      · right; exact h

theorem mem_of_mem_foldl_insertByCount {y : Str × ℕ} {l : List (Str × ℕ)} :
    ∀ {acc : List (Str × ℕ)}, y ∈ l.foldl (fun a x => insertByCount x a) acc →
      y ∈ acc ∨ y ∈ l := by
  induction l with
  | nil =>
    intro acc h
    simp only [List.foldl_nil] at h
    left; exact h
  | cons z zs ih =>
    intro acc h
    simp only [List.foldl_cons] at h
    rcases ih h with h' | h'
    · rcases mem_insertByCount h' with h'' | h''
      · right; rw [h'']; exact List.mem_cons_self z zs
      · left; exact h''
    · right; exact List.mem_cons_of_mem z h'

theorem mem_of_mem_sortByCountDesc {y : Str × ℕ} {l : List (Str × ℕ)}
    (h : y ∈ sortByCountDesc l) : y ∈ l := by
  rcases mem_of_mem_foldl_insertByCount h with h' | h'
  · simp at h'
  · exact h'

theorem mem_of_mem_extract_keywords {x : Str × ℕ} {text : Str} {mn mx : ℕ}
    (h : x ∈ _extract_keywords text mn mx) :
    (mn ≤ x.1.length ∧ x.1.all isAZ = true) ∧ ¬(x.1 ∈ stop_words) := by
  unfold _extract_keywords most_common at h
  have h1 : x ∈ sortByCountDesc (countFreq
      (((runs wordChar text).filter fun w => decide (mn ≤ w.length) && w.all isAZ).filter
        fun w => !(decide (w ∈ stop_words)))) := List.mem_of_mem_take h
  have h2 := fst_mem_of_mem_countFreq (mem_of_mem_sortByCountDesc h1)
  have h3 := List.of_mem_filter (List.mem_of_mem_filter h2)
  have h4 := List.of_mem_filter h2
  refine ⟨⟨?_, ?_⟩, ?_⟩
  · exact of_decide_eq_true ((Bool.and_eq_true _ _).mp h3).1
  · exact ((Bool.and_eq_true _ _).mp h3).2
  · intro hmem
    rw [Bool.not_eq_true'] at h4
    exact absurd h4 (by simp [hmem])

theorem length_extract_keywords_le (text : Str) (mn mx : ℕ) :
    (_extract_keywords text mn mx).length ≤ mx := by
  unfold _extract_keywords most_common
  exact List.length_take_le _ _

/-! ### Bounds on the individual scores -/

theorem keyword_score_bounds (jdt rt : Str) :
    0 ≤ (calculate_keyword_match jdt rt).1 ∧ (calculate_keyword_match jdt rt).1 ≤ 100 := by
  simp only [calculate_keyword_match]
  split_ifs with h
  · norm_num
  · set jdk := _extract_keywords jdt 3 50 with hjdk
    set m := ((jdk.filter fun kv =>
      0 < ((_extract_keywords rt 3 50).lookup kv.1).getD 0).map Prod.fst).length with hm
    have hn : 0 < jdk.length := List.length_pos.mpr h
    have hmn : m ≤ jdk.length := by
      rw [hm, List.length_map]
      exact List.length_filter_le _ _
    have hq0 : (0 : ℚ) ≤ (m : ℚ) / (jdk.length : ℚ) * 100 := by positivity
    have hq1 : (m : ℚ) / (jdk.length : ℚ) * 100 ≤ 100 := by
      have hd : (m : ℚ) / (jdk.length : ℚ) ≤ 1 := by
        rw [div_le_one (by exact_mod_cast hn)]
        exact_mod_cast hmn
      nlinarith
    constructor
    · exact le_pyRound (by exact_mod_cast hq0)
    · exact pyRound_le (by exact_mod_cast hq1)

theorem skill_score_bounds (jdt rt : Str) :
    0 ≤ (check_required_skills jdt rt).1 ∧ (check_required_skills jdt rt).1 ≤ 100 := by
  simp only [check_required_skills]
  split_ifs with h
  · norm_num
  · set req := _extract_required_skills jdt with hreq
    set m := (req.filter fun sk => isSubstr sk rt).length with hm
    have hn : 0 < req.length := List.length_pos.mpr h
    have hmn : m ≤ req.length := List.length_filter_le _ _
    have hq0 : (0 : ℚ) ≤ (m : ℚ) / (req.length : ℚ) * 100 := by positivity
    have hq1 : (m : ℚ) / (req.length : ℚ) * 100 ≤ 100 := by
      have hd : (m : ℚ) / (req.length : ℚ) ≤ 1 := by
        rw [div_le_one (by exact_mod_cast hn)]
        exact_mod_cast hmn
      nlinarith
    constructor
    · exact le_pyRound (by exact_mod_cast hq0)
    · exact pyRound_le (by exact_mod_cast hq1)

set_option maxHeartbeats 1000000 in
theorem check_formatting_fst_bounds (resume : Resume) :
    30 ≤ (check_formatting resume).1 ∧ (check_formatting resume).1 ≤ 100 := by
  unfold check_formatting
  dsimp only
  split_ifs <;> decide

theorem calculate_readability_mem (rt : Str) :
    calculate_readability rt = 0 ∨ calculate_readability rt = 60 ∨
      calculate_readability rt = 80 ∨ calculate_readability rt = 100 := by
  simp only [calculate_readability]
  split_ifs with h1 h2 h3 h4 h5
  · left; rfl
  · left; rfl
  · right; right; right; rfl
  · right; right; left; rfl
  · right; left; rfl
  · exfalso
    push_neg at h3 h4 h5
    have ha := h5.1
    have h15 := h4.1 ha
    have h20 := h3 h15
    have h25 := h4.2 h20
    linarith [h5.2]

theorem calculate_readability_bounds (rt : Str) :
    0 ≤ calculate_readability rt ∧ calculate_readability rt ≤ 100 := by
  rcases calculate_readability_mem rt with h | h | h | h <;> rw [h] <;> norm_num

theorem overall_score_bounds {k s f r : ℤ}
    (hk0 : 0 ≤ k) (hk1 : k ≤ 100) (hs0 : 0 ≤ s) (hs1 : s ≤ 100)
    (hf0 : 0 ≤ f) (hf1 : f ≤ 100) (hr0 : 0 ≤ r) (hr1 : r ≤ 100) :
    0 ≤ overall_score k s f r ∧ overall_score k s f r ≤ 100 := by
  have hk0' : (0 : ℚ) ≤ (k : ℚ) := by exact_mod_cast hk0
  have hk1' : (k : ℚ) ≤ 100 := by exact_mod_cast hk1
  have hs0' : (0 : ℚ) ≤ (s : ℚ) := by exact_mod_cast hs0
  have hs1' : (s : ℚ) ≤ 100 := by exact_mod_cast hs1
  have hf0' : (0 : ℚ) ≤ (f : ℚ) := by exact_mod_cast hf0
  have hf1' : (f : ℚ) ≤ 100 := by exact_mod_cast hf1
  have hr0' : (0 : ℚ) ≤ (r : ℚ) := by exact_mod_cast hr0
  have hr1' : (r : ℚ) ≤ 100 := by exact_mod_cast hr1
  unfold overall_score
  constructor
  · apply le_pyRound
    push_cast
    nlinarith
  · apply pyRound_le
    push_cast
    nlinarith

/-! ### Sample inputs used by the witnesses -/

/-- A resume with every field empty. -/
def emptyResume : Resume :=
  { full_name := [], email := [], phone := [], location := [], summary := [],
    experiences := [], educations := [], skills := [], certifications := [],
    projects := [] }

/-- The experience row of `sampleResume`: a description with no digits. -/
def sampleExperience : Experience :=
  { company := ("Acme").toList, position := ("Dev").toList,
    description := ("built things").toList }

/-- A resume with an email, no phone, one digit-free experience, one skill
and no summary (the configuration of the format-score example). -/
def sampleResume : Resume :=
  { full_name := ("Ada").toList, email := ("ada@example.com").toList,
    phone := [], location := [], summary := [],
    experiences := [sampleExperience], educations := [],
    skills := [("python").toList], certifications := [], projects := [] }

/-! ### Claim theorems -/

/-- C1: for every resume and job description the overall score computed by
`analyze` (and by `get_detailed_report`) and each of the four breakdown
sub-scores (keyword match, skill match, formatting, readability) are
integers in `[0, 100]`; in particular the formatting score is never
negative. -/
theorem scores_within_range (now : ℕ) (resume : Resume) (job_description : Str) :
    (0 ≤ (analyze now resume job_description).1.score ∧
      (analyze now resume job_description).1.score ≤ 100) ∧
    (0 ≤ (get_detailed_report resume job_description).overall_score ∧
      (get_detailed_report resume job_description).overall_score ≤ 100) ∧
    (0 ≤ (get_detailed_report resume job_description).keyword_match ∧
      (get_detailed_report resume job_description).keyword_match ≤ 100) ∧
    (0 ≤ (get_detailed_report resume job_description).skill_match ∧
      (get_detailed_report resume job_description).skill_match ≤ 100) ∧
    (0 ≤ (get_detailed_report resume job_description).formatting ∧
      (get_detailed_report resume job_description).formatting ≤ 100) ∧
    (0 ≤ (get_detailed_report resume job_description).readability ∧
      (get_detailed_report resume job_description).readability ≤ 100) := by
  have hk := keyword_score_bounds (lower job_description) (resume_text resume)
  have hs := skill_score_bounds (lower job_description) (resume_text resume)
  have hf := check_formatting_fst_bounds resume
  have hf0 : (0 : ℤ) ≤ (check_formatting resume).1 := le_trans (by norm_num) hf.1
  have hr := calculate_readability_bounds (resume_text resume)
  have ho := overall_score_bounds hk.1 hk.2 hs.1 hs.2 hf0 hf.2 hr.1 hr.2
  exact ⟨ho, ho, hk, hs, ⟨hf0, hf.2⟩, hr⟩

/-- C2: when the keyword set extracted from the (lowercased) job description
is empty, `calculate_keyword_match` returns score 0, empty matched and
missing lists and an empty density mapping — a defined result, not a
division error. -/
theorem keyword_match_empty_jd (resume : Resume) (job_description : Str)
    (h : _extract_keywords (lower job_description) 3 50 = []) :
    calculate_keyword_match (lower job_description) (resume_text resume) =
      (0, [], [], []) := by
  simp only [calculate_keyword_match]
  rw [if_pos h]

/-- Witness for C2: the empty job description has an empty keyword set and
yields the zero result on `emptyResume`. -/
theorem keyword_match_empty_jd_witness :
    _extract_keywords (lower []) 3 50 = [] ∧
    calculate_keyword_match (lower []) (resume_text emptyResume) = (0, [], [], []) :=
  ⟨by decide, keyword_match_empty_jd emptyResume [] (by decide)⟩

/-- C7: `get_detailed_report` computes the same overall score and the same
four breakdown sub-scores as `analyze`, and its keyword lists are the first
10 elements of the 20-element-truncated lists stored by `analyze`. -/
theorem detailed_report_agrees_with_analyze (now : ℕ) (resume : Resume)
    (job_description : Str) :
    (get_detailed_report resume job_description).overall_score =
      (analyze now resume job_description).1.score ∧
    (get_detailed_report resume job_description).keyword_match =
      (calculate_keyword_match (lower job_description) (resume_text resume)).1 ∧
    (get_detailed_report resume job_description).skill_match =
      (check_required_skills (lower job_description) (resume_text resume)).1 ∧
    (get_detailed_report resume job_description).formatting =
      (check_formatting resume).1 ∧
    (get_detailed_report resume job_description).readability =
      (analyze now resume job_description).1.readability_score ∧
    (get_detailed_report resume job_description).matched_keywords =
      (analyze now resume job_description).1.matched_keywords.take 10 ∧
    (get_detailed_report resume job_description).missing_keywords =
      (analyze now resume job_description).1.missing_keywords.take 10 :=
  ⟨rfl, rfl, rfl, rfl, rfl, rfl, rfl⟩

/-- C9: `analyze` leaves every content field of the input resume unchanged
(it only writes `ats_score` and `last_ats_check` on its returned copy). -/
theorem analyze_preserves_resume_content (now : ℕ) (resume : Resume)
    (job_description : Str) :
    (analyze now resume job_description).2.full_name = resume.full_name ∧
    (analyze now resume job_description).2.email = resume.email ∧
    (analyze now resume job_description).2.phone = resume.phone ∧
    (analyze now resume job_description).2.location = resume.location ∧
    (analyze now resume job_description).2.summary = resume.summary ∧
    (analyze now resume job_description).2.experiences = resume.experiences ∧
    (analyze now resume job_description).2.educations = resume.educations ∧
    (analyze now resume job_description).2.skills = resume.skills ∧
    (analyze now resume job_description).2.certifications = resume.certifications ∧
    (analyze now resume job_description).2.projects = resume.projects :=
  ⟨rfl, rfl, rfl, rfl, rfl, rfl, rfl, rfl, rfl, rfl⟩

/-- C10: the deductions of `check_formatting` sum to at most 70 (email 10,
phone 5, experience 20, skills 15, metrics 10, and at most 10 for the
mutually exclusive summary conditions), so the returned score is at least
30 and the final floor at 0 is never the binding branch. -/
theorem check_formatting_min_score (resume : Resume) :
    30 ≤ (check_formatting resume).1 :=
  (check_formatting_fst_bounds resume).1

/-- Unfolding of `calculate_readability` on a text with at least one word:
the result is the band value of the average words-per-sentence ratio. -/
theorem readability_unfold (t : Str) (hw : splitWs t ≠ []) :
    calculate_readability t =
      (if 15 ≤ ((splitWs t).length : ℚ) / ((splitOnRuns sentTerm t).length : ℚ) ∧
          ((splitWs t).length : ℚ) / ((splitOnRuns sentTerm t).length : ℚ) ≤ 20 then 100
       else if (10 ≤ ((splitWs t).length : ℚ) / ((splitOnRuns sentTerm t).length : ℚ) ∧
            ((splitWs t).length : ℚ) / ((splitOnRuns sentTerm t).length : ℚ) < 15) ∨
          (20 < ((splitWs t).length : ℚ) / ((splitOnRuns sentTerm t).length : ℚ) ∧
            ((splitWs t).length : ℚ) / ((splitOnRuns sentTerm t).length : ℚ) ≤ 25) then 80
       else if ((splitWs t).length : ℚ) / ((splitOnRuns sentTerm t).length : ℚ) < 10 ∨
          25 < ((splitWs t).length : ℚ) / ((splitOnRuns sentTerm t).length : ℚ) then 60
       else 70) := by
  have ht : t ≠ [] := by
    intro h
    apply hw
    rw [h]
    rfl
  have hA : ¬(t.isEmpty = true) := by
    simp only [List.isEmpty_iff]
    exact ht
  have hB : ¬(((splitOnRuns sentTerm t).isEmpty || (splitWs t).isEmpty) = true) := by
    simp only [Bool.or_eq_true, List.isEmpty_iff]
    rintro (h | h)
    · exact splitOnRuns_ne_nil sentTerm t h
    · exact hw h
  simp only [calculate_readability]
  rw [if_neg hA, if_neg hB]

/-- C3: `calculate_readability` maps the average words-per-sentence value
`avg = W/S` (`W` words, `S` sentence pieces, `S > 0`) to bands with the
stated inclusivity — `15 ≤ avg ≤ 20` gives 100, `10 ≤ avg < 15` or
`20 < avg ≤ 25` gives 80, `avg < 10` or `avg > 25` gives 60 (the band
conditions are stated cross-multiplied by `S`, which is equivalent since
`S > 0`); the empty text gives 0, the range is `{0, 60, 80, 100}`, and the
dead fallback 70 is never returned. -/
theorem readability_bands (t : Str) :
    (t = [] → calculate_readability t = 0) ∧
    (calculate_readability t = 0 ∨ calculate_readability t = 60 ∨
      calculate_readability t = 80 ∨ calculate_readability t = 100) ∧
    calculate_readability t ≠ 70 ∧
    (splitWs t ≠ [] →
      (15 * (splitOnRuns sentTerm t).length ≤ (splitWs t).length ∧
          (splitWs t).length ≤ 20 * (splitOnRuns sentTerm t).length →
        calculate_readability t = 100) ∧
      ((10 * (splitOnRuns sentTerm t).length ≤ (splitWs t).length ∧
           (splitWs t).length < 15 * (splitOnRuns sentTerm t).length) ∨
         (20 * (splitOnRuns sentTerm t).length < (splitWs t).length ∧
           (splitWs t).length ≤ 25 * (splitOnRuns sentTerm t).length) →
        calculate_readability t = 80) ∧
      ((splitWs t).length < 10 * (splitOnRuns sentTerm t).length ∨
         25 * (splitOnRuns sentTerm t).length < (splitWs t).length →
        calculate_readability t = 60)) := by
  refine ⟨?_, calculate_readability_mem t, ?_, ?_⟩
  · intro h
    rw [h]
    rfl
  · rcases calculate_readability_mem t with h | h | h | h <;> rw [h] <;> norm_num
  · intro hw
    have hS : 0 < (splitOnRuns sentTerm t).length :=
      List.length_pos.mpr (splitOnRuns_ne_nil sentTerm t)
    have hS' : (0 : ℚ) < ((splitOnRuns sentTerm t).length : ℚ) := by exact_mod_cast hS
    have hkey := readability_unfold t hw
    set W : ℚ := ((splitWs t).length : ℚ) with hWdef
    set S : ℚ := ((splitOnRuns sentTerm t).length : ℚ) with hSdef
    refine ⟨?_, ?_, ?_⟩
    · rintro ⟨h15, h20⟩
      have h15' : (15 : ℚ) * S ≤ W := by
        rw [hWdef, hSdef]; exact_mod_cast h15
      have h20' : W ≤ 20 * S := by
        rw [hWdef, hSdef]; exact_mod_cast h20
      rw [hkey, if_pos]
      constructor
      · rw [le_div_iff₀ hS']
        linarith
      · rw [div_le_iff₀ hS']
        linarith
    · rintro (⟨h10, h15⟩ | ⟨h20, h25⟩)
      · have h10' : (10 : ℚ) * S ≤ W := by
          rw [hWdef, hSdef]; exact_mod_cast h10
        have h15' : W < 15 * S := by
          rw [hWdef, hSdef]; exact_mod_cast h15
        have hd15 : W / S < 15 := by rw [div_lt_iff₀ hS']; linarith
        have hd10 : 10 ≤ W / S := by rw [le_div_iff₀ hS']; linarith
        rw [hkey, if_neg, if_pos]
        · exact Or.inl ⟨hd10, hd15⟩
        · rintro ⟨hc, -⟩
          linarith
      · have h20' : (20 : ℚ) * S < W := by
          rw [hWdef, hSdef]; exact_mod_cast h20
        have h25' : W ≤ 25 * S := by
          rw [hWdef, hSdef]; exact_mod_cast h25
        have hd20 : 20 < W / S := by rw [lt_div_iff₀ hS']; linarith
        have hd25 : W / S ≤ 25 := by rw [div_le_iff₀ hS']; linarith
        rw [hkey, if_neg, if_pos]
        · exact Or.inr ⟨hd20, hd25⟩
        · rintro ⟨-, hc⟩
          linarith
    · rintro (h10 | h25)
      · have h10' : W < 10 * S := by
          rw [hWdef, hSdef]; exact_mod_cast h10
        have hd10 : W / S < 10 := by rw [div_lt_iff₀ hS']; linarith
        rw [hkey, if_neg, if_neg, if_pos]
        · exact Or.inl hd10
        · rintro (⟨hc, -⟩ | ⟨hc, -⟩) <;> linarith
        · rintro ⟨hc, -⟩
          linarith
      · have h25' : (25 : ℚ) * S < W := by
          rw [hWdef, hSdef]; exact_mod_cast h25
        have hd25 : 25 < W / S := by rw [lt_div_iff₀ hS']; linarith
        rw [hkey, if_neg, if_neg, if_pos]
        · exact Or.inr hd25
        · rintro (⟨-, hc⟩ | ⟨-, hc⟩) <;> linarith
        · rintro ⟨-, hc⟩
          linarith

/-- A 30-word single-sentence text: `re.split` produces two pieces, so the
average words-per-sentence value is exactly 15. -/
def sampleReadableText : Str :=
  ("aa bb cc dd ee ff gg hh ii jj kk ll mm nn oo pp qq rr ss tt uu vv ww xx yy zz ab cd ef gh.").toList

/-- Witness for C3: on `sampleReadableText` the average is exactly 15 and
the readability score is 100. -/
theorem readability_bands_witness : calculate_readability sampleReadableText = 100 :=
  ((readability_bands sampleReadableText).2.2.2 (by decide)).1 (by decide)

/-- C4: a resume with an email, no phone, exactly one experience whose
description has no digits, exactly one skill and no summary gets format
score `100 − 5 − 10 − 10 = 75` with exactly the three issues phone,
metrics, summary, in this order. -/
theorem check_formatting_example (resume : Resume) (e : Experience) (sk : Str)
    (hemail : resume.email ≠ []) (hphone : resume.phone = [])
    (hexp : resume.experiences = [e]) (hdig : e.description.any Char.isDigit = false)
    (hsk : resume.skills = [sk]) (hsum : resume.summary = []) :
    check_formatting resume =
      (75, ["Missing phone number",
            "Add quantifiable achievements (numbers, percentages, metrics)",
            "Missing professional summary"]) := by
  unfold check_formatting
  rw [hexp, hphone, hsk, hsum]
  simp [hdig, List.isEmpty_iff, hemail]

/-- Witness for C4: `sampleResume` is such a resume and gets score 75 with
the three issues. -/
theorem check_formatting_example_witness :
    check_formatting sampleResume =
      (75, ["Missing phone number",
            "Add quantifiable achievements (numbers, percentages, metrics)",
            "Missing professional summary"]) :=
  check_formatting_example sampleResume sampleExperience (("python").toList)
    (by decide) (by decide) (by decide) (by decide) (by decide) (by decide)

/-- C5: `check_required_skills` counts a required skill as found exactly
when it is a literal substring of the lowercased resume text; with an empty
required-skill set it returns `(100, [], [])`, and otherwise the score is
`round(100·|found|/|required|)`.  Concretely, with required skills
`machine learning` and `react` and resume text
`experience with machine learning pipelines`, `machine learning` is found
and `react` is missing. -/
theorem required_skills_substring_spec :
    (∀ jdt rt sk : Str,
      (sk ∈ (check_required_skills jdt rt).2.1 ↔
        sk ∈ _extract_required_skills jdt ∧ isSubstr sk rt = true) ∧
      (sk ∈ (check_required_skills jdt rt).2.2 ↔
        sk ∈ _extract_required_skills jdt ∧ ¬(isSubstr sk rt = true))) ∧
    (∀ jdt rt : Str, _extract_required_skills jdt = [] →
      check_required_skills jdt rt = (100, [], [])) ∧
    (∀ jdt rt : Str, _extract_required_skills jdt ≠ [] →
      (check_required_skills jdt rt).1 =
        pyRound ((((check_required_skills jdt rt).2.1.length : ℚ) /
          ((_extract_required_skills jdt).length : ℚ)) * 100)) ∧
    ((("machine learning").toList ∈
        (check_required_skills (("machine learning and react").toList)
          (("experience with machine learning pipelines").toList)).2.1) ∧
      (("react").toList ∈
        (check_required_skills (("machine learning and react").toList)
          (("experience with machine learning pipelines").toList)).2.2)) := by
  refine ⟨?_, ?_, ?_, by decide⟩
  · intro jdt rt sk
    constructor
    · simp only [check_required_skills]
      split_ifs with h <;>
        simp [List.mem_filter]
    · simp only [check_required_skills]
      split_ifs with h <;>
        simp [List.mem_filter]
  · intro jdt rt h
    simp [check_required_skills, h]
  · intro jdt rt h
    simp only [check_required_skills]
    rw [if_neg h]

/-- Witness for C5: on the empty job description the required-skill set is
empty and the result is `(100, [], [])`. -/
theorem required_skills_substring_spec_witness :
    check_required_skills ([]) (("python").toList) = (100, [], []) :=
  required_skills_substring_spec.2.1 ([]) (("python").toList) (by decide)

/-- C6: every keyword produced by `_extract_keywords` is a run of letters
`a`-`z` of length at least `min_length` that is not a stop word (so tokens
with digits or punctuation are never extracted), at most `max_keywords`
entries are returned, and on `"the a is in python python python"` with
`min_length = 3` the result is exactly `{"python": 3}`. -/
theorem extract_keywords_spec :
    (∀ (text : Str) (mn mx : ℕ), ∀ p ∈ _extract_keywords text mn mx,
      p.1.all isAZ = true ∧ mn ≤ p.1.length ∧ ¬(p.1 ∈ stop_words)) ∧
    (∀ (text : Str) (mn mx : ℕ), (_extract_keywords text mn mx).length ≤ mx) ∧
    _extract_keywords (("the a is in python python python").toList) 3 50 =
      [(("python").toList, 3)] := by
  refine ⟨?_, length_extract_keywords_le, by decide⟩
  intro text mn mx p hp
  have h := mem_of_mem_extract_keywords hp
  exact ⟨h.1.2, h.1.1, h.2⟩

/-- Witness for C6: the keyword `python` of the example satisfies the
character, length and stop-word conditions. -/
theorem extract_keywords_spec_witness :
    (("python").toList).all isAZ = true ∧ 3 ≤ (("python").toList).length ∧
      ¬((("python").toList) ∈ stop_words) :=
  extract_keywords_spec.1 (("the a is in python python python").toList) 3 50
    ((("python").toList, 3)) (by decide)

/-- The accumulated suggestion list is empty exactly when no keyword, skill
or formatting suggestion fired. -/
theorem preSuggestions_eq_nil_iff (k s : ℤ) (mk ms : List Str)
    (issues : List String) :
    preSuggestions k s mk ms issues = [] ↔
      80 ≤ k ∧ (70 ≤ s ∨ ms = []) ∧ issues = [] := by
  simp only [preSuggestions]
  constructor
  · intro h
    rcases List.append_eq_nil.mp h with ⟨h2, h3⟩
    refine ⟨?_, ?_, List.map_eq_nil_iff.mp h3⟩
    · by_cases hsk : s < 70 ∧ ¬ms.isEmpty = true
      · rw [if_pos hsk] at h2
        exact absurd h2 (by simp)
      · rw [if_neg hsk] at h2
        by_cases hk60 : k < 60
        · rw [if_pos hk60] at h2
          simp at h2
        · rw [if_neg hk60] at h2
          by_cases hk80 : k < 80
          · rw [if_pos hk80] at h2
            simp at h2
          · omega
    · by_cases hsk : s < 70 ∧ ¬ms.isEmpty = true
      · rw [if_pos hsk] at h2
        exact absurd h2 (by simp)
      · rcases not_and_or.mp hsk with hs | hs
        · left; omega
        · right
          exact List.isEmpty_iff.mp (not_not.mp hs)
  · rintro ⟨hk, hs, hi⟩
    have hk60 : ¬(k < 60) := by omega
    have hk80 : ¬(k < 80) := by omega
    have hsk : ¬(s < 70 ∧ ¬ms.isEmpty = true) := by
      rintro ⟨h1, h2⟩
      rcases hs with hs | hs
      · omega
      · exact h2 (by rw [hs]; rfl)
    rw [hi, if_neg hsk, if_neg hk60, if_neg hk80]
    simp

/-- Every accumulated (pre-fallback) suggestion is a Keywords, Skills or
Formatting suggestion. -/
theorem category_of_mem_preSuggestions {g : Suggestion} {k s : ℤ}
    {mk ms : List Str} {issues : List String}
    (hg : g ∈ preSuggestions k s mk ms issues) :
    g.category = "Keywords" ∨ g.category = "Skills" ∨ g.category = "Formatting" := by
  have hkw : ∀ h : g ∈
      (if k < 60 then
        ([] : List Suggestion) ++
          [{ category := "Keywords", severity := "high",
             message := s!"Only {k}% keyword match. Add more relevant keywords from the job description.",
             action := "Focus on these missing keywords: " ++ joinStrs (mk.take 5) }]
      else if k < 80 then
        ([] : List Suggestion) ++
          [{ category := "Keywords", severity := "medium",
             message := "Good keyword coverage, but room for improvement.",
             action := "Consider adding: " ++ joinStrs (mk.take 3) }]
      else []), g.category = "Keywords" := by
    intro h
    by_cases hk60 : k < 60
    · rw [if_pos hk60] at h
      simp at h
      rw [h]
    · rw [if_neg hk60] at h
      by_cases hk80 : k < 80
      · rw [if_pos hk80] at h
        simp at h
        rw [h]
      · rw [if_neg hk80] at h
        simp at h
  simp only [preSuggestions] at hg
  rcases List.mem_append.mp hg with h | h
  · by_cases hsk : s < 70 ∧ ¬ms.isEmpty = true
    · rw [if_pos hsk] at h
      rcases List.mem_append.mp h with h' | h'
      · exact Or.inl (hkw h')
      · simp at h'
        right; left
        rw [h']
    · rw [if_neg hsk] at h
      exact Or.inl (hkw h)
  · obtain ⟨i, hi, hgi⟩ := List.mem_map.mp h
    right; right
    rw [← hgi]

/-- C8: `generate_suggestions` always returns a non-empty list; it contains
the General low-severity suggestion exactly when no keyword suggestion
fired (`keyword_score ≥ 80`), no skill suggestion fired (`skill_score ≥ 70`
or no missing skills) and there are no formatting issues; and in that case
the General suggestion is the only element. -/
theorem generate_suggestions_fallback (k s f : ℤ) (mk ms : List Str)
    (issues : List String) :
    generate_suggestions k s f mk ms issues ≠ [] ∧
    ((∃ g ∈ generate_suggestions k s f mk ms issues, g.category = "General") ↔
      80 ≤ k ∧ (70 ≤ s ∨ ms = []) ∧ issues = []) ∧
    (80 ≤ k ∧ (70 ≤ s ∨ ms = []) ∧ issues = [] →
      generate_suggestions k s f mk ms issues = [generalSuggestion]) := by
  have hmain : 80 ≤ k ∧ (70 ≤ s ∨ ms = []) ∧ issues = [] →
      generate_suggestions k s f mk ms issues = [generalSuggestion] := by
    intro hc
    have hpre := (preSuggestions_eq_nil_iff k s mk ms issues).mpr hc
    simp only [generate_suggestions]
    rw [if_pos (by rw [hpre]; rfl)]
  refine ⟨?_, ⟨?_, ?_⟩, hmain⟩
  · simp only [generate_suggestions]
    split_ifs with h
    · simp
    · intro heq
      exact h (by rw [heq]; rfl)
  · rintro ⟨g, hg, hcat⟩
    simp only [generate_suggestions] at hg
    split_ifs at hg with h
    · exact (preSuggestions_eq_nil_iff k s mk ms issues).mp (List.isEmpty_iff.mp h)
    · rcases category_of_mem_preSuggestions hg with hc | hc | hc <;>
        rw [hcat] at hc <;> exact absurd hc (by decide)
  · intro hc
    refine ⟨generalSuggestion, ?_, rfl⟩
    rw [hmain hc]
    exact List.mem_singleton_self _

/-- Witness for C8: with all scores 100 and nothing missing the suggestion
list is exactly the General fallback. -/
theorem generate_suggestions_fallback_witness :
    generate_suggestions 100 100 100 [] [] [] = [generalSuggestion] :=
  (generate_suggestions_fallback 100 100 100 [] [] []).2.2 (by decide)

end ATS
